import Mathlib

/-!
Verification of the Traverse VS Code extension (calltrace/traverse-vscode).

This file gives a shallow embedding, in Lean, of the pure decision logic of
the extension's core: result persistence (`handleDiagramResult`), binary
location post-processing (`getServerPath`), command registration and request
payload construction (`registerCommands`), the analysis command handlers,
and the mock LSP server's frame parser (`MockLSPServer.parseMessage`).

JavaScript strings are modelled as `List Char` (or Lean `String` where only
concatenation and equality are needed); JavaScript truthiness of a string
value is modelled explicitly (`undefined`/`null` ↦ `none`, and the empty
string is falsy).  All definitions are computable and structurally
recursive so that concrete runs reduce inside the kernel.
-/

namespace Traverse

/-! ## JavaScript string primitives -/

/-- JS whitespace class used by `trim`, and by the regex `\s`
(restricted to the ASCII whitespace characters that occur here). -/
def jsIsWs (c : Char) : Bool :=
  c = ' ' || c = '\t' || c = '\n' || c = '\r' || c = Char.ofNat 11 || c = Char.ofNat 12

/-- `String.prototype.startsWith` on character lists. -/
def jsStartsWith : List Char → List Char → Bool
  | [], _ => true
  | _ :: _, [] => false
  | p :: ps, c :: cs => p = c && jsStartsWith ps cs

/-- `String.prototype.includes` on character lists: some suffix of `s`
starts with `sub`. -/
def jsIncludes (s sub : List Char) : Bool :=
  jsStartsWith sub s ||
    match s with
    | [] => false
    | _ :: rest => jsIncludes rest sub

/-- `String.prototype.trim` (both ends). -/
def jsTrim (s : List Char) : List Char :=
  ((s.dropWhile jsIsWs).reverse.dropWhile jsIsWs).reverse

/-- Decimal digits of a leading digit run. -/
def jsDigitsVal : List Char → Nat → Nat
  | c :: cs, acc =>
      if '0' ≤ c && c ≤ '9' then jsDigitsVal cs (acc * 10 + (c.toNat - '0'.toNat))
      else acc
  | [], acc => acc

/-- Length of the leading digit run. -/
def jsDigitsLen : List Char → Nat
  | c :: cs => if '0' ≤ c && c ≤ '9' then jsDigitsLen cs + 1 else 0
  | [] => 0

/-- `parseInt(s)` (radix 10): skip leading whitespace, optional sign, then
read the maximal leading digit run; `none` models `NaN` (no digits). -/
def jsParseInt (s : List Char) : Option Int :=
  let t := s.dropWhile jsIsWs
  match t with
  | '-' :: rest => if jsDigitsLen rest = 0 then none else some (-(jsDigitsVal rest 0 : Int))
  | '+' :: rest => if jsDigitsLen rest = 0 then none else some (jsDigitsVal rest 0 : Int)
  | _ => if jsDigitsLen t = 0 then none else some (jsDigitsVal t 0 : Int)

/-- `String.prototype.split(sep)` for a non-empty literal separator,
fuelled for structural recursion; fuel `s.length + 1` always suffices
because every step consumes at least one character of `s`. -/
def jsSplitAux (sep : List Char) : Nat → List Char → List Char → List (List Char)
  | 0, acc, _ => [acc.reverse]
  | _ + 1, acc, [] => [acc.reverse]
  | fuel + 1, acc, c :: cs =>
      if jsStartsWith sep (c :: cs) then
        acc.reverse :: jsSplitAux sep fuel [] ((c :: cs).drop sep.length)
      else
        jsSplitAux sep fuel (c :: acc) cs

/-- `s.split(sep)` for a non-empty literal separator. -/
def jsSplit (sep s : List Char) : List (List Char) :=
  jsSplitAux sep (s.length + 1) [] s

/-- `Array.prototype.join(sep)`. -/
def jsJoin (sep : List Char) : List (List Char) → List Char
  | [] => []
  | [x] => x
  | x :: xs => x ++ sep ++ jsJoin sep xs

/-- ASCII lowering, the fragment of `String.prototype.toLowerCase`
exercised by the extension's titles. -/
def jsLowerChar (c : Char) : Char :=
  if 'A' ≤ c && c ≤ 'Z' then Char.ofNat (c.toNat + 32) else c

/-- `s.toLowerCase()`. -/
def jsToLower (s : List Char) : List Char := s.map jsLowerChar

/-- `s.replace(/\s+/g, '-')`: every maximal run of whitespace becomes a
single dash.  Fuelled; each step consumes at least one character, so fuel
`s.length + 1` suffices. -/
def jsWsRunsToDashAux : Nat → List Char → List Char
  | 0, _ => []
  | _ + 1, [] => []
  | fuel + 1, c :: cs =>
      if jsIsWs c then '-' :: jsWsRunsToDashAux fuel (cs.dropWhile jsIsWs)
      else c :: jsWsRunsToDashAux fuel cs

/-- `s.replace(/\s+/g, '-')`. -/
def jsWsRunsToDash (s : List Char) : List Char :=
  jsWsRunsToDashAux (s.length + 1) s

/-- JS truthiness of a possibly-absent string field: `undefined`/`null`
and the empty string are falsy. -/
def jsStrTruthy : Option String → Bool
  | none => false
  | some s => !(s == "")

/-! ## Result persistence (`handleDiagramResult`, src/extension.ts:568-675)

The impure surroundings (output channel, notifications, `fs` calls) are
abstracted away; what is modelled is the exact decision logic computing the
ordered list of `(path, contents)` file writes performed via
`fs.writeFileSync`.  The code pushes each written path onto `savedFiles`
immediately after writing it, so the reported saved paths are exactly the
first components of this list, in the same order. -/

/-- The `data` object of a multi-format command result. -/
structure DiagramData where
  dot : Option String
  mermaid : Option String
deriving DecidableEq

/-- A command result: `{success, data?, diagram?}`. -/
structure DiagramResult where
  success : Bool
  data : Option DiagramData
  diagram : Option String
deriving DecidableEq

/-- `path.join(a, b)` for the simple components used here. -/
def pathJoin (a b : String) : String := a ++ "/" ++ b

/-- `new Date().toISOString().replace(/[:.]/g, '-').split('T')[0]`
(src/extension.ts:586), applied to the ISO clock string: since the
date part of an ISO string contains no `:` or `.`, this is the calendar
date. -/
def mkTimestamp (iso : String) : String :=
  String.mk ((jsSplit ['T']
    (iso.data.map fun c => if c = ':' || c = '.' then '-' else c)).headD [])

/-- Category subdirectory selection from the human-readable title
(src/extension.ts:592-600). -/
def categoryDir (title : String) : String :=
  let lower := jsToLower title.data
  if jsIncludes lower "call graph".data then "call-graphs"
  else if jsIncludes lower "sequence".data then "sequence-diagrams"
  else if jsIncludes lower "storage".data then "storage-reports"
  else "diagrams"

/-- `title.toLowerCase().replace(/\s+/g, '-')`, the filename stem. -/
def titleSlug (title : String) : String :=
  String.mk (jsWsRunsToDash (jsToLower title.data))

/-- Legacy single-format extension sniffing (src/extension.ts:632-642):
default `.md`; `digraph`/`strict graph` select `.dot`; otherwise
`sequenceDiagram`/`graph TD`/`graph LR`/`flowchart` select `.mmd`. -/
def detectExtension (diagram : String) : String :=
  if jsIncludes diagram.data "digraph".data ||
     jsIncludes diagram.data "strict graph".data then ".dot"
  else if jsIncludes diagram.data "sequenceDiagram".data ||
          jsIncludes diagram.data "graph TD".data ||
          jsIncludes diagram.data "graph LR".data ||
          jsIncludes diagram.data "flowchart".data then ".mmd"
  else ".md"

/-- The ordered `(path, contents)` writes of `handleDiagramResult`
(src/extension.ts:568-675).  `result = none` models an absent result,
`workspaceFolder = none` models an empty `workspaceFolders` array, and
`iso` is the ISO string of the clock read `new Date().toISOString()`.
All early returns (absent result, `success` falsy, no workspace folder)
write nothing; the function never throws. -/
def handleDiagramResult (result : Option DiagramResult) (title : String)
    (workspaceFolder : Option String) (iso : String) :
    List (String × String) :=
  match result with
  | none => []
  | some r =>
    if !r.success then []
    else match workspaceFolder with
    | none => []
    | some ws =>
      let timestamp := mkTimestamp iso
      let outputDir := pathJoin (pathJoin ws "traverse-output") (categoryDir title)
      match r.data with
      | some d =>
          (if jsStrTruthy d.dot then
            [(pathJoin outputDir (titleSlug title ++ "-" ++ timestamp ++ ".dot"),
              d.dot.getD "")]
           else []) ++
          (if jsStrTruthy d.mermaid then
            [(pathJoin outputDir (titleSlug title ++ "-" ++ timestamp ++ ".mmd"),
              d.mermaid.getD "")]
           else [])
      | none =>
          if jsStrTruthy r.diagram then
            let s := r.diagram.getD ""
            [(pathJoin outputDir (titleSlug title ++ "-" ++ timestamp ++ detectExtension s), s)]
          else []

/-! ## Binary location (`getServerPath`, src/extension.ts:21-44)

`BinaryFinder.find()` itself lives in src/binaryFinder.ts, which is not part
of the sources here; `getServerPath` receives its result as an input.  What
is modelled is the post-processing the extension applies to a found
location: on a non-Windows platform, every location whose source is not
`settings` gets `fs.chmodSync(path, 0o755)` applied before the path is
returned; a `settings` location is returned with its permission bits
untouched. -/

/-- A location produced by `BinaryFinder.find()`:
`{path, source}` where the configured-settings source is the string
`"settings"`. -/
structure BinaryLocation where
  path : String
  source : String
deriving DecidableEq

/-- The observable effects of `getServerPath`: the returned path (if any)
and the `fs.chmodSync(path, mode)` calls it performed, in order. -/
structure ServerPathResult where
  returned : Option String
  chmodCalls : List (String × Nat)
deriving DecidableEq

/-- `getServerPath` (src/extension.ts:21-44), as a function of the host
platform string (`os.platform()`) and the finder's result. -/
def getServerPath (platform : String) (location : Option BinaryLocation) :
    ServerPathResult :=
  match location with
  | some loc =>
      if !(platform == "win32") && !(loc.source == "settings") then
        { returned := some loc.path, chmodCalls := [(loc.path, 0o755)] }
      else
        { returned := some loc.path, chmodCalls := [] }
  | none => { returned := none, chmodCalls := [] }

/-! ## Command registration and request payloads
(src/extension.ts:272-563) -/

/-- The single arguments object of a `workspace/executeCommand` request.
`chunking` is optional; `none` models the absence of the key in the
JavaScript object literal. -/
structure ExecuteCommandArgs where
  workspace_folder : String
  chunking : Option Bool
deriving DecidableEq

/-- The params object of a `workspace/executeCommand` request. -/
structure ExecuteCommandParams where
  command : String
  arguments : List ExecuteCommandArgs
deriving DecidableEq

/-- The command identifiers registered by `registerCommands` and pushed to
`context.subscriptions`, in push order (src/extension.ts:555-562). -/
def registeredCommandIds : List String :=
  ["traverse.generateCallGraph",
   "traverse.generateSequenceDiagram",
   "traverse.generateStorageAnalysis",
   "traverse.generateAllAnalyses",
   "traverse.restart",
   "traverse.downloadServer"]

/-- The request payload built by the generate-call-graph handler
(src/extension.ts:303-306): the object literal carries only
`workspace_folder`. -/
def generateCallGraphPayload (projectRoot : String) : ExecuteCommandParams :=
  { command := "traverse.generateCallGraph.workspace",
    arguments := [{ workspace_folder := projectRoot, chunking := none }] }

/-- The request payload built by the generate-sequence-diagram handler
(src/extension.ts:350-353). -/
def generateSequenceDiagramPayload (projectRoot : String) : ExecuteCommandParams :=
  { command := "traverse.generateSequenceDiagram.workspace",
    arguments := [{ workspace_folder := projectRoot, chunking := none }] }

/-- The request payload built by the storage-analysis handler
(src/extension.ts:482-485). -/
def analyzeStoragePayload (projectRoot : String) : ExecuteCommandParams :=
  { command := "traverse.analyzeStorage.workspace",
    arguments := [{ workspace_folder := projectRoot, chunking := none }] }

/-! ## Session acquisition and command handlers -/

/-- Outcome of one `client.sendRequest` call: a result, or a thrown error
with a message. -/
inductive RequestOutcome where
  | ok (result : Option DiagramResult)
  | err (message : String)

/-- The external environment a command handler runs against: the editor
state, the finder/downloader/process collaborators and the server's
behaviour, all inputs to the pure decision logic. -/
structure CommandEnv where
  /-- Whether the module-level `client` is already set. -/
  clientRunning : Bool
  /-- `os.platform()`. -/
  platform : String
  /-- Result of `BinaryFinder.find()`. -/
  binaryFound : Option BinaryLocation
  /-- Whether `startLanguageServer` succeeds for a given binary path. -/
  startOk : String → Bool
  /-- The button the user picks on the download prompt
  (`none` models dismissing the prompt). -/
  downloadChoice : Option String
  /-- Result of `downloader.downloadLatestBinary()`
  (`none` models failure or cancellation). -/
  downloadResult : Option String
  /-- `vscode.workspace.workspaceFolders?.[0]?.uri.fsPath`. -/
  workspaceFolder : Option String
  /-- The server's response to a request payload. -/
  respond : ExecuteCommandParams → RequestOutcome
  /-- ISO string of the clock at result-handling time. -/
  iso : String

/-- The download-prompt tail of `ensureLSPClient`
(src/extension.ts:246-269): prompt, download on consent, try to start the
downloaded binary; every failure path returns `false`. -/
def ensureAfterPrompt (env : CommandEnv) : Bool :=
  if env.downloadChoice == some "Download" then
    match env.downloadResult with
    | some p => env.startOk p
    | none => false
  else false

/-- `ensureLSPClient` (src/extension.ts:228-270): `true` if a client
already runs; otherwise locate a binary via `getServerPath` and try to
start it (a start failure falls through to the download prompt, as does a
missing binary). -/
def ensureLSPClient (env : CommandEnv) : Bool :=
  if env.clientRunning then true
  else
    match (getServerPath env.platform env.binaryFound).returned with
    | some p => if env.startOk p then true else ensureAfterPrompt env
    | none => ensureAfterPrompt env

/-- `findProjectRoot` (src/extension.ts:211-222): always the workspace
root when one exists, else `startPath || ''`. -/
def findProjectRoot (workspaceFolder startPath : Option String) : String :=
  match workspaceFolder with
  | some ws => ws
  | none => startPath.getD ""

/-- `uri?.fsPath || vscode.workspace.workspaceFolders?.[0]?.uri.fsPath`:
the clicked path, falling back (also on an empty string, which is falsy)
to the workspace folder. -/
def clickedPath (uri workspaceFolder : Option String) : Option String :=
  match uri with
  | some u => if u == "" then workspaceFolder else some u
  | none => workspaceFolder

/-- Observable behaviour of one analysis command handler: the requests it
sent and the file writes it performed. -/
structure HandlerRun where
  sent : List ExecuteCommandParams
  writes : List (String × String)

/-- The generate-call-graph command handler (src/extension.ts:274-318):
abort (sending nothing) unless `ensureLSPClient` succeeds and a non-empty
project root is found; then send the payload and persist the result; a
thrown request error is caught at the handler boundary. -/
def runGenerateCallGraph (env : CommandEnv) (uri : Option String) : HandlerRun :=
  if !ensureLSPClient env then { sent := [], writes := [] }
  else
    let projectRoot := findProjectRoot env.workspaceFolder (clickedPath uri env.workspaceFolder)
    if projectRoot == "" then { sent := [], writes := [] }
    else
      let payload := generateCallGraphPayload projectRoot
      match env.respond payload with
      | .ok result =>
          { sent := [payload],
            writes := handleDiagramResult result "Call Graph" env.workspaceFolder env.iso }
      | .err _ => { sent := [payload], writes := [] }

/-! ## The generate-all handler (src/extension.ts:365-450) -/

/-- Observable behaviour of the generate-all handler: requests sent in
order, the error log entries appended by the per-step `catch` blocks, and
the file writes. -/
structure GenerateAllRun where
  sent : List ExecuteCommandParams
  log : List String
  writes : List (String × String)

/-- One step of the generate-all handler: send the payload; on a thrown
error append the step's log line (`catch` block), otherwise persist the
result. -/
def generateAllStep (respond : ExecuteCommandParams → RequestOutcome)
    (workspaceFolder : Option String) (iso : String) (st : GenerateAllRun)
    (payload : ExecuteCommandParams) (title errLabel : String) : GenerateAllRun :=
  let st := { st with sent := st.sent ++ [payload] }
  match respond payload with
  | .ok result =>
      { st with writes := st.writes ++ handleDiagramResult result title workspaceFolder iso }
  | .err m => { st with log := st.log ++ [errLabel ++ m] }

/-- The generate-all command handler (src/extension.ts:365-450): after the
same guards as the single-analysis handlers, run call graph, sequence
diagram and storage analysis in that fixed order, each in its own
`try`/`catch`. -/
def runGenerateAll (env : CommandEnv) (uri : Option String) : GenerateAllRun :=
  if !ensureLSPClient env then { sent := [], log := [], writes := [] }
  else
    let projectRoot := findProjectRoot env.workspaceFolder (clickedPath uri env.workspaceFolder)
    if projectRoot == "" then { sent := [], log := [], writes := [] }
    else
      let st : GenerateAllRun := { sent := [], log := [], writes := [] }
      let st := generateAllStep env.respond env.workspaceFolder env.iso st
        (generateCallGraphPayload projectRoot) "Call Graph" "Call graph error: "
      let st := generateAllStep env.respond env.workspaceFolder env.iso st
        (generateSequenceDiagramPayload projectRoot) "Sequence Diagram" "Sequence diagram error: "
      generateAllStep env.respond env.workspaceFolder env.iso st
        (analyzeStoragePayload projectRoot) "Storage Analysis" "Storage analysis error: "

/-! ## A model of `JSON.parse` (ECMA-404 grammar)

`MockLSPServer.parseMessage` (src/unnamed/part_001) frames messages by
calling `JSON.parse` on everything after the first blank header line, so a
model of the JSON grammar is needed.  The parser below follows the
ECMA-404 / `JSON.parse` grammar: the four JSON whitespace characters,
strict number syntax (no leading zeros, a fraction and exponent each need
at least one digit), string escapes (each `\uXXXX` becomes the scalar with
that code, without surrogate pairing, which is immaterial here), and no
trailing input.  Numbers keep their source lexeme, which is enough to
decide parse success and distinguish values. -/

/-- A parsed JSON value. -/
inductive JsonValue where
  | null
  | bool (b : Bool)
  | num (lexeme : List Char)
  | str (s : List Char)
  | arr (elems : List JsonValue)
  | obj (fields : List (List Char × JsonValue))

/-- The four JSON whitespace characters accepted by `JSON.parse`. -/
def jsonIsWs (c : Char) : Bool :=
  c = ' ' || c = '\t' || c = '\n' || c = '\r'

/-- Skip JSON whitespace. -/
def jsonSkipWs (cs : List Char) : List Char := cs.dropWhile jsonIsWs

/-- Value of a hexadecimal digit (by code point: `0`-`9`, `a`-`f`,
`A`-`F`). -/
def hexDigitVal (c : Char) : Option Nat :=
  let n := c.toNat
  if 48 ≤ n && n ≤ 57 then some (n - 48)
  else if 97 ≤ n && n ≤ 102 then some (n - 87)
  else if 65 ≤ n && n ≤ 70 then some (n - 55)
  else none

/-- Decimal digit test. -/
def isDigitChar (c : Char) : Bool := '0' ≤ c && c ≤ '9'

/-- Parse the body of a JSON string (after the opening quote), returning
the decoded characters and the rest of the input.  Unescaped control
characters are rejected, as `JSON.parse` does. -/
def parseJStringAux : Nat → List Char → List Char → Option (List Char × List Char)
  | 0, _, _ => none
  | _ + 1, _, [] => none
  | fuel + 1, acc, c :: rest =>
      if c = '"' then some (acc.reverse, rest)
      else if c = '\\' then
        match rest with
        | [] => none
        | e :: rest' =>
          if e = '"' then parseJStringAux fuel ('"' :: acc) rest'
          else if e = '\\' then parseJStringAux fuel ('\\' :: acc) rest'
          else if e = '/' then parseJStringAux fuel ('/' :: acc) rest'
          else if e = 'b' then parseJStringAux fuel (Char.ofNat 8 :: acc) rest'
          else if e = 'f' then parseJStringAux fuel (Char.ofNat 12 :: acc) rest'
          else if e = 'n' then parseJStringAux fuel ('\n' :: acc) rest'
          else if e = 'r' then parseJStringAux fuel ('\r' :: acc) rest'
          else if e = 't' then parseJStringAux fuel ('\t' :: acc) rest'
          else if e = 'u' then
            match rest' with
            | h1 :: h2 :: h3 :: h4 :: rest2 =>
              match hexDigitVal h1, hexDigitVal h2, hexDigitVal h3, hexDigitVal h4 with
              | some v1, some v2, some v3, some v4 =>
                  parseJStringAux fuel
                    (Char.ofNat (4096 * v1 + 256 * v2 + 16 * v3 + v4) :: acc) rest2
              | _, _, _, _ => none
            | _ => none
          else none
      else if c.toNat < 32 then none
      else parseJStringAux fuel (c :: acc) rest

/-- Parse a JSON string body with enough fuel. -/
def parseJString (cs : List Char) : Option (List Char × List Char) :=
  parseJStringAux (cs.length + 1) [] cs

/-- Parse a JSON number at the head of the input, returning its lexeme and
the rest, following the strict ECMA-404 grammar. -/
def parseJNumber (cs : List Char) : Option (List Char × List Char) :=
  let (sign, cs1) :=
    match cs with
    | '-' :: r => (['-'], r)
    | _ => (([] : List Char), cs)
  let intPart : Option (List Char × List Char) :=
    match cs1 with
    | '0' :: r => some (['0'], r)
    | c :: _ =>
        if isDigitChar c && !(c = '0') then
          some (cs1.takeWhile isDigitChar, cs1.dropWhile isDigitChar)
        else none
    | [] => none
  match intPart with
  | none => none
  | some (ip, rest1) =>
    let fracPart : Option (List Char × List Char) :=
      match rest1 with
      | '.' :: r =>
          let ds := r.takeWhile isDigitChar
          if ds = [] then none else some ('.' :: ds, r.dropWhile isDigitChar)
      | _ => some ([], rest1)
    match fracPart with
    | none => none
    | some (fp, rest2) =>
      let expPart : Option (List Char × List Char) :=
        match rest2 with
        | e :: r =>
            if e = 'e' || e = 'E' then
              let (es, r1) :=
                match r with
                | '+' :: r' => (['+'], r')
                | '-' :: r' => (['-'], r')
                | _ => (([] : List Char), r)
              let ds := r1.takeWhile isDigitChar
              if ds = [] then none else some (e :: (es ++ ds), r1.dropWhile isDigitChar)
            else some ([], rest2)
        | [] => some ([], rest2)
      match expPart with
      | none => none
      | some (ep, rest3) => some (sign ++ ip ++ fp ++ ep, rest3)

/-- A pending container on the parse stack: an array collecting elements,
or an object collecting fields with the key whose value is pending. -/
inductive JFrame where
  | inArr (acc : List JsonValue)
  | inObj (acc : List (List Char × JsonValue)) (key : List Char)

/-- The machine's current task: parse a value at the head of the input, or
deliver a finished value `v` to the enclosing frame. -/
inductive JTask where
  | value (cs : List Char)
  | closed (v : JsonValue) (cs : List Char)

/-- Parse an object key and the following colon, returning the key and the
input positioned at the value. -/
def parseObjKey (cs : List Char) : Option (List Char × List Char) :=
  match jsonSkipWs cs with
  | '"' :: rest =>
      match parseJString rest with
      | some (k, rest1) =>
          match jsonSkipWs rest1 with
          | ':' :: rest2 => some (k, rest2)
          | _ => none
      | none => none
  | _ => none

/-- The JSON parsing machine.  Every step consumes input or pops the
stack, so `2 * |input| + 4` fuel always suffices. -/
def jsonRun : Nat → List JFrame → JTask → Option JsonValue
  | 0, _, _ => none
  | fuel + 1, stack, .value cs =>
    match jsonSkipWs cs with
    | [] => none
    | c :: rest =>
      if c = Char.ofNat 123 then
        match jsonSkipWs rest with
        | d :: rest1 =>
            if d = Char.ofNat 125 then jsonRun fuel stack (.closed (.obj []) rest1)
            else
              match parseObjKey rest with
              | some (k, rest2) => jsonRun fuel (.inObj [] k :: stack) (.value rest2)
              | none => none
        | [] => none
      else if c = '[' then
        match jsonSkipWs rest with
        | ']' :: rest1 => jsonRun fuel stack (.closed (.arr []) rest1)
        | cs1 => jsonRun fuel (.inArr [] :: stack) (.value cs1)
      else if c = '"' then
        match parseJString rest with
        | some (s, rest1) => jsonRun fuel stack (.closed (.str s) rest1)
        | none => none
      else if jsStartsWith "null".data (c :: rest) then
        jsonRun fuel stack (.closed .null ((c :: rest).drop 4))
      else if jsStartsWith "true".data (c :: rest) then
        jsonRun fuel stack (.closed (.bool true) ((c :: rest).drop 4))
      else if jsStartsWith "false".data (c :: rest) then
        jsonRun fuel stack (.closed (.bool false) ((c :: rest).drop 5))
      else
        match parseJNumber (c :: rest) with
        | some (lex, rest1) => jsonRun fuel stack (.closed (.num lex) rest1)
        | none => none
  | fuel + 1, stack, .closed v cs =>
    match stack with
    | [] => if jsonSkipWs cs = [] then some v else none
    | .inArr acc :: stack' =>
        match jsonSkipWs cs with
        | ',' :: rest => jsonRun fuel (.inArr (v :: acc) :: stack') (.value rest)
        | ']' :: rest => jsonRun fuel stack' (.closed (.arr (v :: acc).reverse) rest)
        | _ => none
    | .inObj acc key :: stack' =>
        match jsonSkipWs cs with
        | ',' :: rest =>
            match parseObjKey rest with
            | some (k, rest1) =>
                jsonRun fuel (.inObj ((key, v) :: acc) k :: stack') (.value rest1)
            | none => none
        | d :: rest =>
            if d = Char.ofNat 125 then
              jsonRun fuel stack' (.closed (.obj ((key, v) :: acc).reverse) rest)
            else none
        | _ => none

/-- `JSON.parse(s)`: `none` models a thrown `SyntaxError`. -/
def jsonParse (cs : List Char) : Option JsonValue :=
  jsonRun (2 * cs.length + 4) [] (.value cs)

/-! ## `MockLSPServer.parseMessage` (src/unnamed/part_001:43-71)

The mock server splits the buffer on `\r\n`, scans for a
`Content-Length:` header and a subsequent blank line, then hands
*everything* after the blank line (re-joined with `\n`) to `JSON.parse`;
the declared length is only used for the `> 0` test and never bounds the
body. -/

/-- `'Content-Length:'`, the header the scan looks for;
`line.substring(15)` drops exactly this prefix. -/
def contentLengthHeader : List Char := "Content-Length:".data

/-- `contentLength > 0` where `none` models `NaN` (a failed `parseInt`). -/
def clPositive : Option Int → Bool
  | some v => v > 0
  | none => false

/-- The header scan of `parseMessage`: walk the lines; a line starting
with `Content-Length:` updates `contentLength` via
`parseInt(line.substring(15).trim())`; otherwise a blank line with a
positive `contentLength` fixes `jsonStart` at the next line index. -/
def findJsonStart : List (List Char) → Nat → Option Int → Option Nat
  | [], _, _ => none
  | line :: rest, i, cl =>
      if jsStartsWith contentLengthHeader line then
        findJsonStart rest (i + 1) (jsParseInt (jsTrim (line.drop 15)))
      else if line.isEmpty && clPositive cl then some (i + 1)
      else findJsonStart rest (i + 1) cl

/-- `MockLSPServer.parseMessage` (src/unnamed/part_001:43-71): split on
`\r\n`, scan headers, then `JSON.parse` of all remaining lines joined
with `\n`; `none` models a `null` return (no header match or a JSON
syntax error). -/
def parseMessage (buffer : String) : Option JsonValue :=
  let lines := jsSplit ['\r', '\n'] buffer.data
  match findJsonStart lines 0 (some 0) with
  | some jsonStart => jsonParse (jsJoin ['\n'] (lines.drop jsonStart))
  | none => none

/-! ## Theorems for the claims -/

/-- Claim C1 (code bug): the toggle-chunking command is supposed to negate
the configured chunking boolean, after which every analysis request carries
a `chunking` field with the new value.  Evaluating the code:
`registerCommands` registers no `traverse.toggleChunking` command at all,
and each handler's `workspace/executeCommand` payload carries only
`workspace_folder` — the `chunking` key is absent (`none`) for every
project root. -/
theorem toggleChunking_not_registered_and_no_chunking_field :
    registeredCommandIds.contains "traverse.toggleChunking" = false ∧
    ∀ root : String,
      (generateCallGraphPayload root).arguments = [⟨root, none⟩] ∧
      (generateSequenceDiagramPayload root).arguments = [⟨root, none⟩] ∧
      (analyzeStoragePayload root).arguments = [⟨root, none⟩] :=
  ⟨by decide, fun _ => ⟨rfl, rfl, rfl⟩⟩

/-- Claim C2 (code bug): the claim says `parseMessage` returns `null`
whenever fewer than the declared `Content-Length` body bytes are present,
and that the frame boundary is fixed solely by the declared length.
Evaluating the code: for the buffer `"Content-Length: 2\r\n\r\n1"` — one
byte of a declared two-byte body (`10`) delivered — `parseMessage`
produces the message `1` instead of `null`, and for a buffer holding one
complete one-byte frame followed by the next frame it returns `null` even
though all declared bytes of the first frame are available: the code
delimits frames by `JSON.parse` success on the whole tail, not by the
declared length. -/
theorem parseMessage_ignores_declared_length :
    parseMessage "Content-Length: 2\r\n\r\n1" = some (.num ['1']) ∧
    parseMessage "Content-Length: 1\r\n\r\n7\r\nContent-Length: 1\r\n\r\n8" = none :=
  ⟨rfl, rfl⟩

/-- Claim C3 (confirmed): for a successful result
`{success: true, data: {dot: "digraph G { A -> B; }"}}` handled as a call
graph with workspace root `/proj`, exactly one file is written, at
`/proj/traverse-output/call-graphs/call-graph-<date>.dot`, whose content
is exactly the dot string; `<date>` is the calendar-date part of the ISO
clock string, as the second conjunct evaluates on a sample instant. -/
theorem callGraph_success_writes_single_dated_dot_file :
    (∀ iso : String,
      handleDiagramResult
        (some ⟨true, some ⟨some "digraph G \x7b A -> B; \x7d", none⟩, none⟩)
        "Call Graph" (some "/proj") iso =
      [("/proj/traverse-output/call-graphs/call-graph-" ++ mkTimestamp iso ++ ".dot",
        "digraph G \x7b A -> B; \x7d")]) ∧
    mkTimestamp "2026-10-11T12:34:56.789Z" = "2026-10-11" :=
  ⟨fun _ => rfl, by decide⟩

/-- Claim C4, counterexample: a result in which both `dot` and `mermaid`
sub-fields are present but `dot` is the empty string.  The claim as stated
requires exactly two files; the code's truthiness test
`if (result.data.dot)` skips the empty string, so exactly one file (the
`.mmd` one) is written. -/
theorem persist_present_empty_dot_writes_single_file :
    handleDiagramResult
      (some ⟨true, some ⟨some "", some "sequenceDiagram"⟩, none⟩)
      "Sequence Diagram" (some "/proj") "2026-10-11T12:34:56.789Z" =
    [("/proj/traverse-output/sequence-diagrams/sequence-diagram-2026-10-11.mmd",
      "sequenceDiagram")] := by
  decide

/-- Claim C4 (corrected): for every result whose `data` carries both a
`dot` and a `mermaid` sub-field that are present and non-empty, the
persist step writes exactly two files — first the `.dot` file with the
dot payload, then the `.mmd` file with the mermaid payload — and the
reported saved paths are these two absolute paths in write order. -/
theorem persist_both_formats_written_in_order (d m : String) (dg : Option String)
    (title ws iso : String)
    (hd : (d == "") = false) (hm : (m == "") = false) :
    handleDiagramResult (some ⟨true, some ⟨some d, some m⟩, dg⟩) title (some ws) iso =
    [(pathJoin (pathJoin (pathJoin ws "traverse-output") (categoryDir title))
        (titleSlug title ++ "-" ++ mkTimestamp iso ++ ".dot"), d),
     (pathJoin (pathJoin (pathJoin ws "traverse-output") (categoryDir title))
        (titleSlug title ++ "-" ++ mkTimestamp iso ++ ".mmd"), m)] := by
  simp [handleDiagramResult, jsStrTruthy, hd, hm]

/-- Claim C4, witness: the corrected theorem applied at concrete non-empty
payloads. -/
theorem persist_both_formats_written_in_order_witness :
    ("digraph G" == "") = false ∧ ("sequenceDiagram" == "") = false ∧
    handleDiagramResult
      (some ⟨true, some ⟨some "digraph G", some "sequenceDiagram"⟩, none⟩)
      "Sequence Diagram" (some "/proj") "2026-10-11T12:34:56.789Z" =
    [(pathJoin (pathJoin (pathJoin "/proj" "traverse-output")
        (categoryDir "Sequence Diagram"))
        (titleSlug "Sequence Diagram" ++ "-" ++
          mkTimestamp "2026-10-11T12:34:56.789Z" ++ ".dot"), "digraph G"),
     (pathJoin (pathJoin (pathJoin "/proj" "traverse-output")
        (categoryDir "Sequence Diagram"))
        (titleSlug "Sequence Diagram" ++ "-" ++
          mkTimestamp "2026-10-11T12:34:56.789Z" ++ ".mmd"), "sequenceDiagram")] :=
  ⟨rfl, rfl,
   persist_both_formats_written_in_order "digraph G" "sequenceDiagram" none
     "Sequence Diagram" "/proj" "2026-10-11T12:34:56.789Z" rfl rfl⟩

/-- Claim C5 (confirmed): for every result with `success = false`, and for
an absent result, the persist step performs no write and the list of saved
paths is empty; `handleDiagramResult` is a total function returning
normally on these inputs, so nothing propagates to the caller as an
error. -/
theorem persist_failure_or_absent_writes_nothing :
    (∀ (data : Option DiagramData) (diagram : Option String) (title : String)
        (ws : Option String) (iso : String),
        handleDiagramResult (some ⟨false, data, diagram⟩) title ws iso = []) ∧
    (∀ (title : String) (ws : Option String) (iso : String),
        handleDiagramResult none title ws iso = []) :=
  ⟨fun _ _ _ _ _ => rfl, fun _ _ _ => rfl⟩

/-- Claim C6 (code bug): the claim (with the README and the spec) says a
non-`settings` binary on a non-Windows platform is made executable for the
current user only, and a `settings` binary is returned untouched.
Evaluating the code: the `settings` half holds (no chmod call), but for a
non-`settings` location the code calls `fs.chmodSync(path, 0o755)`, and
mode `0o755` has the execute bit set for others (bit 0) and for the group
(bit 3) — not a current-user-only mode. -/
theorem getServerPath_chmod_grants_group_and_other_execute :
    (getServerPath "linux" (some ⟨"/gs/bin/traverse-lsp", "github"⟩)).chmodCalls =
      [("/gs/bin/traverse-lsp", 0o755)] ∧
    Nat.testBit 0o755 0 = true ∧
    Nat.testBit 0o755 3 = true ∧
    (getServerPath "linux" (some ⟨"/cfg/traverse-lsp", "settings"⟩)).chmodCalls = [] ∧
    (getServerPath "linux" (some ⟨"/cfg/traverse-lsp", "settings"⟩)).returned =
      some "/cfg/traverse-lsp" :=
  ⟨rfl, by decide, by decide, rfl, rfl⟩

/-- Claim C7 (confirmed): for a legacy single-format result the extension
is sniffed from the text: a graph-description keyword (`digraph` or
`strict graph`) selects `.dot`; failing that, a diagram-description
keyword (`sequenceDiagram`, `graph TD`, `graph LR` or `flowchart`)
selects `.mmd`; with no marker the generic `.md` is used — and the legacy
branch writes its single file with exactly this sniffed extension. -/
theorem legacy_extension_sniffing :
    (∀ s : String,
        (jsIncludes s.data "digraph".data || jsIncludes s.data "strict graph".data) = true →
        detectExtension s = ".dot") ∧
    (∀ s : String,
        (jsIncludes s.data "digraph".data || jsIncludes s.data "strict graph".data) = false →
        (jsIncludes s.data "sequenceDiagram".data || jsIncludes s.data "graph TD".data ||
         jsIncludes s.data "graph LR".data || jsIncludes s.data "flowchart".data) = true →
        detectExtension s = ".mmd") ∧
    (∀ s : String,
        (jsIncludes s.data "digraph".data || jsIncludes s.data "strict graph".data) = false →
        (jsIncludes s.data "sequenceDiagram".data || jsIncludes s.data "graph TD".data ||
         jsIncludes s.data "graph LR".data || jsIncludes s.data "flowchart".data) = false →
        detectExtension s = ".md") ∧
    (∀ (s title ws iso : String), (s == "") = false →
        handleDiagramResult (some ⟨true, none, some s⟩) title (some ws) iso =
        [(pathJoin (pathJoin (pathJoin ws "traverse-output") (categoryDir title))
            (titleSlug title ++ "-" ++ mkTimestamp iso ++ detectExtension s), s)]) := by
  refine ⟨?_, ?_, ?_, ?_⟩
  · intro s h
    simp [detectExtension, h]
  · intro s h1 h2
    simp [detectExtension, h1, h2]
  · intro s h1 h2
    simp [detectExtension, h1, h2]
  · intro s title ws iso hs
    simp [handleDiagramResult, jsStrTruthy, hs]

/-- Claim C7, witness: the sniffing theorem applied to one sample of each
family and to a concrete legacy write. -/
theorem legacy_extension_sniffing_witness :
    detectExtension "digraph G" = ".dot" ∧
    detectExtension "sequenceDiagram\n    A->>B: hi" = ".mmd" ∧
    detectExtension "# Storage Analysis" = ".md" ∧
    handleDiagramResult (some ⟨true, none, some "# Storage Analysis"⟩)
      "Storage Analysis" (some "/proj") "2026-10-11T12:34:56.789Z" =
    [(pathJoin (pathJoin (pathJoin "/proj" "traverse-output")
        (categoryDir "Storage Analysis"))
        (titleSlug "Storage Analysis" ++ "-" ++ mkTimestamp "2026-10-11T12:34:56.789Z" ++
          detectExtension "# Storage Analysis"), "# Storage Analysis")] :=
  ⟨legacy_extension_sniffing.1 "digraph G" (by decide),
   legacy_extension_sniffing.2.1 "sequenceDiagram\n    A->>B: hi" (by decide) (by decide),
   legacy_extension_sniffing.2.2.1 "# Storage Analysis" (by decide) (by decide),
   legacy_extension_sniffing.2.2.2 "# Storage Analysis" "Storage Analysis" "/proj"
     "2026-10-11T12:34:56.789Z" rfl⟩

/-- Claim C8 (confirmed): whenever the generate-all handler gets past its
guards, it sends the three analysis requests in the fixed order call
graph, sequence diagram, storage analysis — whatever the server does —
and a thrown failure of any one request is caught and logged by that
step's `catch` block while the remaining requests are still sent (the
sent list is the full triple under every response behaviour). -/
theorem generateAll_fixed_order_tolerates_failures (env : CommandEnv)
    (uri : Option String) (ws : String)
    (hc : ensureLSPClient env = true)
    (hw : env.workspaceFolder = some ws)
    (hr : (ws == "") = false) :
    (runGenerateAll env uri).sent =
      [generateCallGraphPayload ws, generateSequenceDiagramPayload ws,
       analyzeStoragePayload ws] ∧
    (∀ m, env.respond (generateCallGraphPayload ws) = .err m →
        "Call graph error: " ++ m ∈ (runGenerateAll env uri).log) ∧
    (∀ m, env.respond (generateSequenceDiagramPayload ws) = .err m →
        "Sequence diagram error: " ++ m ∈ (runGenerateAll env uri).log) ∧
    (∀ m, env.respond (analyzeStoragePayload ws) = .err m →
        "Storage analysis error: " ++ m ∈ (runGenerateAll env uri).log) := by
  cases hr1 : env.respond (generateCallGraphPayload ws) <;>
    cases hr2 : env.respond (generateSequenceDiagramPayload ws) <;>
      cases hr3 : env.respond (analyzeStoragePayload ws) <;>
        simp_all [runGenerateAll, generateAllStep, findProjectRoot, clickedPath, hc, hw, hr]

/-- An environment in which a client runs, the workspace root is `/proj`,
and the server throws on the sequence-diagram request only. -/
def seqDiagramFailsEnv : CommandEnv where
  clientRunning := true
  platform := "linux"
  binaryFound := none
  startOk := fun _ => true
  downloadChoice := none
  downloadResult := none
  workspaceFolder := some "/proj"
  respond := fun p =>
    if p.command == "traverse.generateSequenceDiagram.workspace" then .err "boom"
    else .ok none
  iso := "2026-10-11T12:34:56.789Z"

/-- Claim C8, witness: in `seqDiagramFailsEnv` the full ordered triple is
still sent and the failure is logged. -/
theorem generateAll_fixed_order_tolerates_failures_witness :
    ensureLSPClient seqDiagramFailsEnv = true ∧
    (runGenerateAll seqDiagramFailsEnv none).sent =
      [generateCallGraphPayload "/proj", generateSequenceDiagramPayload "/proj",
       analyzeStoragePayload "/proj"] ∧
    "Sequence diagram error: " ++ "boom" ∈ (runGenerateAll seqDiagramFailsEnv none).log :=
  ⟨rfl,
   (generateAll_fixed_order_tolerates_failures seqDiagramFailsEnv none "/proj"
      rfl rfl rfl).1,
   (generateAll_fixed_order_tolerates_failures seqDiagramFailsEnv none "/proj"
      rfl rfl rfl).2.2.1 "boom" rfl⟩

/-- Claim C9 (confirmed): for an analysis command invoked with no client
session, when no binary is located and the user declines the download
prompt or the download fails, `ensureLSPClient` returns `false` and the
handler returns having sent no request and written nothing; the embedded
handler is a total function, so nothing is thrown past the command
boundary. -/
theorem ensure_client_failure_aborts_without_request (env : CommandEnv)
    (uri : Option String)
    (h1 : env.clientRunning = false)
    (h2 : env.binaryFound = none)
    (h3 : env.downloadChoice ≠ some "Download" ∨ env.downloadResult = none) :
    ensureLSPClient env = false ∧
    (runGenerateCallGraph env uri).sent = [] ∧
    (runGenerateCallGraph env uri).writes = [] := by
  have he : ensureLSPClient env = false := by
    rcases h3 with h | h
    · simp [ensureLSPClient, h1, h2, getServerPath, ensureAfterPrompt, h]
    · cases hdc : env.downloadChoice == some "Download" <;>
        simp [ensureLSPClient, h1, h2, getServerPath, ensureAfterPrompt, hdc, h]
  refine ⟨he, ?_, ?_⟩ <;> simp [runGenerateCallGraph, he]

/-- An environment with no running client, no binary found anywhere, and a
user who declines the download prompt. -/
def declinedDownloadEnv : CommandEnv where
  clientRunning := false
  platform := "linux"
  binaryFound := none
  startOk := fun _ => true
  downloadChoice := some "Cancel"
  downloadResult := none
  workspaceFolder := some "/proj"
  respond := fun _ => .ok none
  iso := "2026-10-11T12:34:56.789Z"

/-- Claim C9, witness: the abort theorem applied to `declinedDownloadEnv`. -/
theorem ensure_client_failure_aborts_without_request_witness :
    declinedDownloadEnv.clientRunning = false ∧
    declinedDownloadEnv.binaryFound = none ∧
    ensureLSPClient declinedDownloadEnv = false ∧
    (runGenerateCallGraph declinedDownloadEnv none).sent = [] :=
  ⟨rfl, rfl,
   (ensure_client_failure_aborts_without_request declinedDownloadEnv none rfl rfl
      (Or.inl (by decide))).1,
   (ensure_client_failure_aborts_without_request declinedDownloadEnv none rfl rfl
      (Or.inl (by decide))).2.1⟩

/-- Claim C10 (confirmed): when `data` is present the legacy `diagram`
string is never consulted — the handler's writes are identical for any two
values of `diagram` — and in particular a present `data` with neither
`dot` nor `mermaid` produces no write at all even when `diagram` is
present. -/
theorem data_shape_takes_precedence_over_diagram :
    (∀ (d : DiagramData) (dg1 dg2 : Option String) (title : String)
        (ws : Option String) (iso : String),
        handleDiagramResult (some ⟨true, some d, dg1⟩) title ws iso =
        handleDiagramResult (some ⟨true, some d, dg2⟩) title ws iso) ∧
    (∀ (dg : Option String) (title : String) (ws : Option String) (iso : String),
        handleDiagramResult (some ⟨true, some ⟨none, none⟩, dg⟩) title ws iso = []) := by
  constructor
  · intro d dg1 dg2 title ws iso
    cases ws <;> rfl
  · intro dg title ws iso
    cases ws <;> rfl

end Traverse
